import Mathlib

/-!
Verification of osgPhysX src/utils/PlayerAnimation.cpp against its
natural-language specification.

Shallow-embedding conventions:
- C++ float is modelled as ℚ (field `F`).  The claims checked here are about
  control flow, sizes, clamping and exact min/max folds, none of which depend
  on rounding.
- ozz::vector / osg arrays are modelled as Lean lists.  A flat float vector
  holding K-component elements (positions as 3 floats each, uvs as 2, colors
  as 4 bytes) is modelled as a list of K-tuples, so a size check
  `part.normals.size() != count * 3` in the source becomes
  `part.normals.length ≠ count` here.
- C++ `int` counts coming from container sizes are nonnegative, so they are
  modelled as Nat and a source check `count <= 0` becomes `count = 0`.
- Calls into the external ozz / OpenSceneGraph libraries (file opening,
  archive tags, the skinning job, osgUtil::SmoothingVisitor) are not part of
  this repository; they are modelled by explicit oracle inputs: a file model
  carries whether it opened and what its archive contains, the skinning job
  and smoothing visitor are fields of an `OsgExt` oracle record.
- Mutation of member state is modelled by explicit state passing on the
  `OzzAnimation` / `PlayerState` records.
- Out-of-range vector indexing is undefined behaviour in C++; it is modelled
  by `List.getD` / `List.set` (which are total), and theorems carry the
  in-range hypotheses that the source establishes before indexing.
-/

/-- C++ float, modelled as ℚ. -/
abbrev F : Type := ℚ

/-- Largest finite single-precision float, (2 - 2⁻²³)·2¹²⁷, used by the
default-constructed osg::BoundingBox. -/
def FLT_MAX : F := 2 ^ 128 - 2 ^ 104

/-- A 2-component float vector (osg::Vec2 / a uv pair). -/
structure V2 where
  x : F
  y : F
deriving DecidableEq

/-- A 3-component float vector (osg::Vec3 / three consecutive floats). -/
structure V3 where
  x : F
  y : F
  z : F
deriving DecidableEq

/-- A 4-component float vector (ozz::math::SimdFloat4 / four floats). -/
structure V4 where
  x : F
  y : F
  z : F
  w : F
deriving DecidableEq

/-- A 4-byte RGBA color (osg::Vec4ub); each channel is a byte value. -/
structure RGBA where
  r : Nat
  g : Nat
  b : Nat
  a : Nat
deriving DecidableEq

def V2.zero : V2 := ⟨0, 0⟩

def V3.zero : V3 := ⟨0, 0, 0⟩

def V4.zero : V4 := ⟨0, 0, 0, 0⟩

/-- Black transparent color, the default-constructed osg::Vec4ub. -/
def RGBA.zero : RGBA := ⟨0, 0, 0, 0⟩

instance : Inhabited V2 := ⟨V2.zero⟩

instance : Inhabited V3 := ⟨V3.zero⟩

instance : Inhabited V4 := ⟨V4.zero⟩

instance : Inhabited RGBA := ⟨RGBA.zero⟩

/-- Opaque white, the value memset with 255 produces on every byte. -/
def RGBA.white : RGBA := ⟨255, 255, 255, 255⟩

/-- Component-wise minimum, ozz::math::Min on SimdFloat4. -/
def V4.min (u v : V4) : V4 := ⟨Min.min u.x v.x, Min.min u.y v.y, Min.min u.z v.z, Min.min u.w v.w⟩

/-- Component-wise maximum, ozz::math::Max on SimdFloat4. -/
def V4.max (u v : V4) : V4 := ⟨Max.max u.x v.x, Max.max u.y v.y, Max.max u.z v.z, Max.max u.w v.w⟩

/-- A 4x4 column-major float matrix (ozz::math::Float4x4); `c3` is the
translation column cols[3]. -/
structure Mat4 where
  c0 : V4
  c1 : V4
  c2 : V4
  c3 : V4
deriving DecidableEq

instance : Inhabited Mat4 := ⟨⟨V4.zero, V4.zero, V4.zero, V4.zero⟩⟩

/-- Dot-product helper for matrix multiplication. -/
def Mat4.row (m : Mat4) (i : Fin 4) : V4 :=
  match i with
  | 0 => ⟨m.c0.x, m.c1.x, m.c2.x, m.c3.x⟩
  | 1 => ⟨m.c0.y, m.c1.y, m.c2.y, m.c3.y⟩
  | 2 => ⟨m.c0.z, m.c1.z, m.c2.z, m.c3.z⟩
  | 3 => ⟨m.c0.w, m.c1.w, m.c2.w, m.c3.w⟩

def V4.dot (u v : V4) : F := u.x * v.x + u.y * v.y + u.z * v.z + u.w * v.w

/-- Matrix-vector product column helper. -/
def Mat4.apply (m : Mat4) (v : V4) : V4 :=
  ⟨(m.row 0).dot v, (m.row 1).dot v, (m.row 2).dot v, (m.row 3).dot v⟩

/-- Matrix product, ozz::math::Float4x4 operator*. -/
def Mat4.mul (m n : Mat4) : Mat4 :=
  ⟨m.apply n.c0, m.apply n.c1, m.apply n.c2, m.apply n.c3⟩

/-- The ozz vector resize semantics: shrink by truncation, grow by appending
default-initialized elements. -/
def vecResize {α : Type} (l : List α) (n : Nat) (z : α) : List α :=
  if l.length ≤ n then l ++ List.replicate (n - l.length) z else l.take n

theorem vecResize_length {α : Type} (l : List α) (n : Nat) (z : α) :
    (vecResize l n z).length = n := by
  unfold vecResize
  split
  · simp; omega
  · simp; omega

/-- Length-preserving in-place copy: memcpy of `src` into `dst` starting at
element index `i`.  In the source every such copy is in range
(`i + src.length ≤ dst.length`). -/
def overwriteRange {α : Type} [Inhabited α] (dst : List α) (i : Nat) (src : List α) : List α :=
  (List.range dst.length).map
    (fun p => if i ≤ p ∧ p < i + src.length then src.getD (p - i) default else dst.getD p default)

theorem overwriteRange_length {α : Type} [Inhabited α] (dst : List α) (i : Nat) (src : List α) :
    (overwriteRange dst i src).length = dst.length := by
  simp [overwriteRange]

/-- osg::clampAbove: raise `v` to at least `lo`. -/
def clampAbove (v lo : F) : F := if v < lo then lo else v

/-- osg::clampBelow: cap `v` at `hi`. -/
def clampBelow (v hi : F) : F := if v > hi then hi else v

/-- osg::clampBetween, as used by PlayerAnimation::seek. -/
def clampBetween (v lo hi : F) : F := clampBelow (clampAbove v lo) hi

/-- The ozz::animation::Skeleton runtime object, reduced to the accessors the
adapter reads.  `num_soa_joints` is the SoA-packed joint count used to size
sampler locals. -/
structure Skeleton where
  num_joints : Nat
  num_soa_joints : Nat
deriving DecidableEq

/-- The ozz::animation::Animation runtime object, reduced to the accessors the
adapter reads. -/
structure Animation where
  num_tracks : Nat
  duration : F
deriving DecidableEq

/-- An ozz::sample::Mesh::Part (named MeshPart here; Part is taken by Mathlib); flat K-component float vectors are modelled as
lists of K-tuples (see the header comment). -/
structure MeshPart where
  positions : List V3
  normals : List V3
  uvs : List V2
  colors : List RGBA
  tangents : List V4
  joint_indices : List Nat
  joint_weights : List F
deriving DecidableEq

/-- Part::vertex_count(), positions.size() / 3 in the flat representation. -/
def MeshPart.vertex_count (p : MeshPart) : Nat := p.positions.length

/-- Part::influences_count() from the ozz sample framework:
joint_indices.size() / vertex_count() (0 for an empty part). -/
def MeshPart.influences_count (p : MeshPart) : Nat :=
  if p.vertex_count = 0 then 0 else p.joint_indices.length / p.vertex_count

/-- An ozz::sample::Mesh.  `highest_joint_index` is the external sample
framework accessor, kept abstract as a field. -/
structure OzzMesh where
  parts : List MeshPart
  triangle_indices : List Nat
  joint_remaps : List Nat
  inverse_bind_poses : List Mat4
  highest_joint_index : Nat
deriving DecidableEq

/-- Mesh::vertex_count(), the sum of the part vertex counts. -/
def OzzMesh.vertex_count (m : OzzMesh) : Nat :=
  (m.parts.map MeshPart.vertex_count).sum

/-- Mesh::triangle_index_count(). -/
def OzzMesh.triangle_index_count (m : OzzMesh) : Nat := m.triangle_indices.length

/-- Model of an on-disk skeleton file together with the ozz archive layer:
whether fopen succeeded, whether the archive's leading tag matches
ozz::animation::Skeleton, and the deserialized object. -/
structure SkeletonFile where
  opened : Bool
  tagOk : Bool
  content : Skeleton
deriving DecidableEq

/-- Model of an on-disk animation file, as for `SkeletonFile`. -/
structure AnimFile where
  opened : Bool
  tagOk : Bool
  content : Animation
deriving DecidableEq

/-- One entry of a mesh-file archive: whether its tag matches
ozz::sample::Mesh, and the mesh payload. -/
structure MeshTagEntry where
  isMeshTag : Bool
  mesh : OzzMesh
deriving DecidableEq

/-- Model of an on-disk mesh file: whether fopen succeeded and the archive
entry sequence. -/
structure MeshFile where
  opened : Bool
  archive : List MeshTagEntry
deriving DecidableEq

/-- OzzAnimation::loadSkeleton (PlayerAnimation.cpp lines 34-48): fails when
the file does not open or the leading tag is not a Skeleton; otherwise
deserializes into the destination and returns true. -/
def OzzAnimation.loadSkeleton (f : SkeletonFile) (dst : Skeleton) : Bool × Skeleton :=
  if f.opened = false then (false, dst)
  else if f.tagOk = false then (false, dst)
  else (true, f.content)

/-- OzzAnimation::loadAnimation (lines 50-64), same shape as loadSkeleton. -/
def OzzAnimation.loadAnimationFile (f : AnimFile) (dst : Animation) : Bool × Animation :=
  if f.opened = false then (false, dst)
  else if f.tagOk = false then (false, dst)
  else (true, f.content)

/-- OzzAnimation::loadMesh (lines 66-81): fails only when the file does not
open; otherwise appends one mesh per leading archive entry whose tag matches
ozz::sample::Mesh (the while-TestTag loop) and returns true. -/
def OzzAnimation.loadMesh (f : MeshFile) (meshes : List OzzMesh) : Bool × List OzzMesh :=
  if f.opened = false then (false, meshes)
  else (true, meshes ++ (f.archive.takeWhile (fun e => e.isMeshTag)).map (fun e => e.mesh))

/-- The time-ratio bookkeeping members of PlayerAnimation
(constructor, lines 255-259). -/
structure PlayerState where
  playbackSpeed : F
  timeRatio : F
  startTime : F
  resetTimeRatio : Bool
deriving DecidableEq

/-- PlayerAnimation::seek (lines 432-436). -/
def PlayerAnimation.seek (st : PlayerState) (timeRatio : F) : PlayerState :=
  { st with timeRatio := clampBetween timeRatio 0 1, resetTimeRatio := true }

/-- The time-ratio bookkeeping part of PlayerAnimation::update
(lines 315-335); `simTime` is fs.getSimulationTime() and `duration` is the
current sampler's animation duration.  The sampling and local-to-model jobs
that follow are external ozz calls and do not touch this state. -/
def PlayerAnimation.updateTimeRatio (st : PlayerState) (simTime : F) (paused : Bool)
    (looping : Bool) (duration : F) : PlayerState :=
  if paused then st
  else if st.timeRatio < 0 then
    { st with startTime := simTime, timeRatio := 0 }
  else if st.resetTimeRatio then
    { st with startTime := simTime - st.timeRatio * duration / st.playbackSpeed,
              resetTimeRatio := false }
  else
    let r := (simTime - st.startTime) * st.playbackSpeed / duration
    { st with timeRatio := if looping ∧ r > 1 then -1 else r }

/-- An OzzAnimation::AnimationSampler (lines 238-245).  `cacheSize` and
`localsLen` model the capacities set by cache.Resize and locals.resize. -/
structure AnimationSampler where
  animation : Animation
  cacheSize : Nat
  localsLen : Nat
  weight : F
deriving DecidableEq

/-- Default-constructed sampler: default animation, empty cache and locals,
weight 1 (the constructor at line 240). -/
def AnimationSampler.mk0 : AnimationSampler := ⟨⟨0, 0⟩, 0, 0, 1⟩

/-- The std::map of samplers, modelled as an association list with unique
keys (std::map semantics; ordering is irrelevant to the claims). -/
abbrev AnimMap : Type := List (String × AnimationSampler)

/-- Whether the map holds an entry for the key. -/
def AnimMap.containsKey (m : AnimMap) (k : String) : Bool :=
  m.any (fun p => p.1 == k)

/-- std::map operator[]: insert a default-constructed entry when absent. -/
def AnimMap.index (m : AnimMap) (k : String) : AnimMap :=
  if m.containsKey k then m else m ++ [(k, AnimationSampler.mk0)]

/-- Write-back of a mutation made through the reference a map lookup
returned. -/
def AnimMap.setEntry (m : AnimMap) (k : String) (v : AnimationSampler) : AnimMap :=
  m.map (fun p => if p.1 == k then (k, v) else p)

/-- Read through the reference operator[] returned. -/
def AnimMap.getEntry (m : AnimMap) (k : String) : AnimationSampler :=
  match m.find? (fun p => p.1 == k) with
  | some p => p.2
  | none => AnimationSampler.mk0

/-- The OzzAnimation member state (lines 246-252). -/
structure OzzAnimation where
  animations : AnimMap
  currentKey : String
  skeleton : Skeleton
  models : List Mat4
  skinning_matrices : List Mat4
  meshes : List OzzMesh
deriving DecidableEq

/-- PlayerAnimation::initialize (lines 261-282): load the skeleton, append
the meshes from the mesh file, resize the model-matrix buffer to the joint
count and the skinning-matrix buffer to the largest joint_remaps size over
all meshes, then reject any mesh whose highest joint index exceeds the joint
count. -/
def PlayerAnimation.init (skF : SkeletonFile) (meshF : MeshFile) (st : OzzAnimation) :
    Bool × OzzAnimation :=
  match OzzAnimation.loadSkeleton skF st.skeleton with
  | (false, _) => (false, st)
  | (true, sk) =>
    let st1 := { st with skeleton := sk }
    match OzzAnimation.loadMesh meshF st1.meshes with
    | (false, _) => (false, st1)
    | (true, ms) =>
      let st2 := { st1 with meshes := ms }
      let st3 := { st2 with models := vecResize st2.models sk.num_joints default }
      let nSkin := (st3.meshes.map (fun m => m.joint_remaps.length)).foldl Nat.max 0
      let st4 := { st3 with skinning_matrices := vecResize st3.skinning_matrices nSkin default }
      if st4.meshes.any (fun m => sk.num_joints < m.highest_joint_index)
      then (false, st4) else (true, st4)

/-- PlayerAnimation::loadAnimation (lines 284-302): operator[] inserts the
entry first; a failed file load returns false with the entry left in place; a
track-count mismatch returns false with the deserialized animation left in
the entry; on success the cache and locals are resized and the key becomes
current when the map holds fewer than two entries. -/
def PlayerAnimation.loadAnimation (f : AnimFile) (key : String) (st : OzzAnimation) :
    Bool × OzzAnimation :=
  let m1 := st.animations.index key
  let s0 := m1.getEntry key
  match OzzAnimation.loadAnimationFile f s0.animation with
  | (false, _) => (false, { st with animations := m1 })
  | (true, anim) =>
    let s1 := { s0 with animation := anim }
    let m2 := m1.setEntry key s1
    if st.skeleton.num_joints ≠ anim.num_tracks then (false, { st with animations := m2 })
    else
      let s2 := { s1 with cacheSize := st.skeleton.num_joints,
                          localsLen := st.skeleton.num_soa_joints }
      let m3 := m1.setEntry key s2
      let ck := if m3.length < 2 then key else st.currentKey
      (true, { st with animations := m3, currentKey := ck })

/-- PlayerAnimation::selectAnimation (lines 426-430); the time-ratio member
lives in `PlayerState`, reset separately. -/
def PlayerAnimation.selectAnimation (st : OzzAnimation) (key : String) : OzzAnimation :=
  { st with currentKey := key }

/-- An osg::BoundingBox reduced to its corners. -/
structure BoundingBox where
  bmin : V3
  bmax : V3
deriving DecidableEq

/-- The default-constructed (invalid) osg::BoundingBox. -/
def BoundingBox.default0 : BoundingBox :=
  ⟨⟨FLT_MAX, FLT_MAX, FLT_MAX⟩, ⟨-FLT_MAX, -FLT_MAX, -FLT_MAX⟩⟩

/-- The while loop of computeSkeletonBounds (lines 407-411): fold
component-wise Min/Max of the translation columns over the remaining
matrices. -/
def boundLoop (l : List Mat4) (mn mx : V4) : V4 × V4 :=
  match l with
  | [] => (mn, mx)
  | m :: rest => boundLoop rest (mn.min m.c3) (mx.max m.c3)

/-- PlayerAnimation::computeSkeletonBounds (lines 385-417).  The
local-to-model job on the bind poses is an external ozz call; `ltm` is its
outcome: none when Run() fails, some of the filled model-matrix vector (of
length num_joints) when it succeeds. -/
def PlayerAnimation.computeSkeletonBounds (sk : Skeleton) (ltm : Option (List Mat4)) :
    BoundingBox :=
  if sk.num_joints = 0 then BoundingBox.default0
  else
    match ltm with
    | none => BoundingBox.default0
    | some matrices =>
      match matrices with
      | [] => BoundingBox.default0
      | m0 :: rest =>
        let (mn, mx) := boundLoop rest m0.c3 m0.c3
        ⟨⟨mn.x, mn.y, mn.z⟩, ⟨mx.x, mx.y, mx.z⟩⟩

/-- An osg array (osg::Vec3Array etc.): element data plus whether dirty() has
been signalled on it. -/
structure OsgArray (α : Type) where
  data : List α
  dirtyFlag : Bool
deriving DecidableEq

/-- An osg::Geometry reduced to the state applyMesh / applySkinningMesh
touch: the four vertex attribute arrays, the first primitive set (the
DrawElementsUShort index list) and bookkeeping flags.  Array bindings
(BIND_PER_VERTEX) and the GL_TRIANGLES mode carry no further state. -/
structure Geometry where
  va : Option (OsgArray V3)
  na : Option (OsgArray V3)
  ta : Option (OsgArray V2)
  ca : Option (OsgArray RGBA)
  prim0 : Option (OsgArray Nat)
  dirtyBoundFlag : Bool
  useDisplayList : Bool
  useVBO : Bool
deriving DecidableEq

/-- The fresh geometry built at lines 361-363: a new osg::Geometry with
display lists off and VBOs on. -/
def Geometry.fresh : Geometry := ⟨none, none, none, none, none, false, false, true⟩

/-- The length of the vertex array (0 when absent). -/
def Geometry.vaLen (g : Geometry) : Nat :=
  match g.va with
  | some a => a.data.length
  | none => 0

/-- The ozz::geometry::SkinningJob input record as filled at lines 178-207.
Strides are in bytes (sizeof(uint16_t) = 2, sizeof(float) = 4); output spans
are freshly allocated buffers whose contents come from the oracle. -/
structure SkinningJob where
  vertex_count : Nat
  influences_count : Nat
  joint_matrices : List Mat4
  joint_indices : List Nat
  joint_indices_stride : Nat
  joint_weights : List F
  joint_weights_stride : Nat
  in_positions : List V3
  in_positions_stride : Nat
  out_positions_stride : Nat
  in_tangents : List V4
  in_tangents_stride : Nat
  out_tangents_stride : Nat
  in_normals : List V3
  in_normals_stride : Nat
  out_normals_stride : Nat
deriving DecidableEq

/-- Oracle for the external library calls the adapter makes:
osgUtil::SmoothingVisitor::smooth recomputes one normal per vertex, and
SkinningJob::Run either fails or fills the output position/normal buffers. -/
structure OsgExt where
  smoothed : Geometry → List V3
  smoothed_len : ∀ g : Geometry, (smoothed g).length = g.vaLen
  runSkinJob : SkinningJob → Option (List V3 × List V3)

/-- osgUtil::SmoothingVisitor::smooth(geom): replace the normal array with
per-vertex smoothed normals and mark it dirty. -/
def OsgExt.smooth (ext : OsgExt) (g : Geometry) : Geometry :=
  { g with na := some ⟨ext.smoothed g, true⟩ }

/-- One attribute-array fixup step shared by lines 89-103 and 143-157: create
the array (vCount default elements) when absent, resize when the size is off;
the Bool is true exactly when the source did NOT decrement dirtyVA for this
array (i.e. it was absent or mis-sized). -/
def fixupArray {α : Type} (old : Option (OsgArray α)) (vCount : Nat) (z : α) :
    OsgArray α × Bool :=
  match old with
  | none => (⟨List.replicate vCount z, false⟩, true)
  | some a =>
    if a.data.length ≠ vCount then ({ a with data := vecResize a.data vCount z }, true)
    else (a, false)

/-- The primitive-set handling shared by lines 105-112 and 159-166: fetch or
create the DrawElementsUShort, then when its size differs from tCount either
fail (tCount = 0) or resize, mark dirty and copy the triangle indices.
Returns the (possibly created) element list and none on the failure path. -/
def fixupPrim (old : Option (OsgArray Nat)) (tCount : Nat) (tris : List Nat) :
    OsgArray Nat × Bool :=
  let de := match old with
    | none => (⟨[], false⟩ : OsgArray Nat)
    | some d => d
  if de.data.length ≠ tCount then
    if tCount = 0 then (de, false)
    else (⟨overwriteRange (vecResize de.data tCount 0) 0 tris, true⟩, true)
  else (de, true)

/-- The per-part copy loop of applyMesh (lines 115-127), threading the write
cursor vIndex and the hasNormals/hasUVs/hasColors flags. -/
def copyParts (parts : List MeshPart) (vIndex : Nat) (vaD naD : List V3) (taD : List V2)
    (caD : List RGBA) (hn hu hc : Bool) :
    List V3 × List V3 × List V2 × List RGBA × Bool × Bool × Bool :=
  match parts with
  | [] => (vaD, naD, taD, caD, hn, hu, hc)
  | p :: rest =>
    let count := p.vertex_count
    let vaD2 := overwriteRange vaD vIndex p.positions
    let (naD2, hn2) :=
      if p.normals.length ≠ count then (naD, false)
      else (overwriteRange naD vIndex p.normals, hn)
    let (taD2, hu2) :=
      if p.uvs.length ≠ count then (taD, false)
      else (overwriteRange taD vIndex p.uvs, hu)
    let (caD2, hc2) :=
      if p.colors.length ≠ count then (caD, false)
      else (overwriteRange caD vIndex p.colors, hc)
    copyParts rest (vIndex + count) vaD2 naD2 taD2 caD2 hn2 hu2 hc2

/-- OzzAnimation::applyMesh (lines 83-134). -/
def OzzAnimation.applyMesh (ext : OsgExt) (geom : Geometry) (mesh : OzzMesh) :
    Bool × Geometry :=
  let vCount := mesh.vertex_count
  let tCount := mesh.triangle_index_count
  if vCount = 0 then (false, geom)
  else
    let (va, dva) := fixupArray geom.va vCount V3.zero
    let (na, dna) := fixupArray geom.na vCount V3.zero
    let (ta, dta) := fixupArray geom.ta vCount V2.zero
    let (ca, dca) := fixupArray geom.ca vCount RGBA.zero
    let (de, deOk) := fixupPrim geom.prim0 tCount mesh.triangle_indices
    let g1 := { geom with va := some va, na := some na, ta := some ta, ca := some ca,
                          prim0 := some de }
    if deOk = false then (false, g1)
    else if dva = false ∧ dna = false ∧ dta = false ∧ dca = false then (true, g1)
    else
      let (vaD, naD, taD, caD, hn, _, hc) :=
        copyParts mesh.parts 0 va.data na.data ta.data ca.data true true true
      let g2 := { g1 with va := some ⟨vaD, va.dirtyFlag⟩, na := some ⟨naD, na.dirtyFlag⟩,
                          ta := some ⟨taD, ta.dirtyFlag⟩, ca := some ⟨caD, ca.dirtyFlag⟩ }
      let g3 := if hn = false then ext.smooth g2 else g2
      let caD2 := match g3.ca with
        | some c => if hc = false ∧ c.data.length ≠ 0
                    then List.replicate c.data.length RGBA.white else c.data
        | none => []
      let g4 := { g3 with va := some ⟨vaD, true⟩,
                          na := some ⟨(match g3.na with | some n => n.data | none => []), true⟩,
                          ta := some ⟨taD, true⟩, ca := some ⟨caD2, true⟩,
                          dirtyBoundFlag := true }
      (true, g4)

/-- The SkinningJob construction at lines 178-207 for one part; joint weights
are attached only when more than one influence is present, tangents and
normals only when their flat sizes match the part's vertex count. -/
def makeSkinningJob (skinningMat : List Mat4) (p : MeshPart) : SkinningJob :=
  let count := p.vertex_count
  let ic := p.influences_count
  { vertex_count := count
    influences_count := ic
    joint_matrices := skinningMat
    joint_indices := p.joint_indices
    joint_indices_stride := 2 * ic
    joint_weights := if 1 < ic then p.joint_weights else []
    joint_weights_stride := if 1 < ic then 4 * (ic - 1) else 0
    in_positions := p.positions
    in_positions_stride := 4 * 3
    out_positions_stride := 4 * 3
    in_tangents := if p.tangents.length = count then p.tangents else []
    in_tangents_stride := if p.tangents.length = count then 4 * 4 else 0
    out_tangents_stride := if p.tangents.length = count then 4 * 4 else 0
    in_normals := if p.normals.length = count then p.normals else []
    in_normals_stride := if p.normals.length = count then 4 * 3 else 0
    out_normals_stride := if p.normals.length = count then 4 * 3 else 0 }

/-- The per-part loop of applySkinningMesh (lines 169-229): run the skinning
job through the oracle, copy its outputs on success (normals only while every
part so far had them), and copy uv/color data only when dirtyVA was
positive. -/
def skinParts (ext : OsgExt) (skinningMat : List Mat4) (parts : List MeshPart)
    (vIndex : Nat) (vaD naD : List V3) (taD : List V2) (caD : List RGBA)
    (copyUVColors : Bool) (hn hu hc : Bool) :
    List V3 × List V3 × List V2 × List RGBA × Bool × Bool × Bool :=
  match parts with
  | [] => (vaD, naD, taD, caD, hn, hu, hc)
  | p :: rest =>
    let count := p.vertex_count
    let hn2 := if p.normals.length ≠ count then false else hn
    let job := makeSkinningJob skinningMat p
    let (vaD2, naD2) :=
      match ext.runSkinJob job with
      | some (outP, outN) =>
        (overwriteRange vaD vIndex outP,
         if hn2 then overwriteRange naD vIndex outN else naD)
      | none => (vaD, naD)
    let (taD2, hu2) :=
      if copyUVColors then
        if p.uvs.length ≠ count then (taD, false)
        else (overwriteRange taD vIndex p.uvs, hu)
      else (taD, hu)
    let (caD2, hc2) :=
      if copyUVColors then
        if p.colors.length ≠ count then (caD, false)
        else (overwriteRange caD vIndex p.colors, hc)
      else (caD, hc)
    skinParts ext skinningMat rest (vIndex + count) vaD2 naD2 taD2 caD2 copyUVColors hn2 hu2 hc2

/-- OzzAnimation::applySkinningMesh (lines 136-236); `skinningMat` is the
span over the shared skinning-matrix buffer captured at line 138. -/
def OzzAnimation.applySkinningMesh (ext : OsgExt) (skinningMat : List Mat4)
    (geom : Geometry) (mesh : OzzMesh) : Bool × Geometry :=
  let vCount := mesh.vertex_count
  let tCount := mesh.triangle_index_count
  if vCount = 0 then (false, geom)
  else
    let (va, _) := fixupArray geom.va vCount V3.zero
    let (na, _) := fixupArray geom.na vCount V3.zero
    let (ta, dta) := fixupArray geom.ta vCount V2.zero
    let (ca, dca) := fixupArray geom.ca vCount RGBA.zero
    let (de, deOk) := fixupPrim geom.prim0 tCount mesh.triangle_indices
    let g1 := { geom with va := some va, na := some na, ta := some ta, ca := some ca,
                          prim0 := some de }
    if deOk = false then (false, g1)
    else
      let copyUVColors := dta = true ∨ dca = true
      let (vaD, naD, taD, caD, hn, _, hc) :=
        skinParts ext skinningMat mesh.parts 0 va.data na.data ta.data ca.data
          copyUVColors true true true
      let g2 := { g1 with va := some ⟨vaD, va.dirtyFlag⟩, na := some ⟨naD, na.dirtyFlag⟩,
                          ta := some ⟨taD, ta.dirtyFlag⟩, ca := some ⟨caD, ca.dirtyFlag⟩ }
      let g3 := if hn = false then ext.smooth g2 else g2
      let caD2 := match g3.ca with
        | some c => if hc = false ∧ c.data.length ≠ 0
                    then List.replicate c.data.length RGBA.white else c.data
        | none => []
      let taFlag := if copyUVColors then true else ta.dirtyFlag
      let caFlag := if copyUVColors then true else ca.dirtyFlag
      let g4 := { g3 with va := some ⟨vaD, true⟩,
                          na := some ⟨(match g3.na with | some n => n.data | none => []), true⟩,
                          ta := some ⟨taD, taFlag⟩, ca := some ⟨caD2, caFlag⟩,
                          dirtyBoundFlag := true }
      (true, g4)

/-- The skinning-matrix update loop of applyMeshes (lines 375-379): for each
j below joint_remaps.size(), write models[joint_remaps[j]] *
inverse_bind_poses[j] into slot j of the shared buffer. -/
def writeSkinLoop (models ibps : List Mat4) (remaps : List Nat) (j : Nat)
    (skinning : List Mat4) : List Mat4 :=
  match remaps with
  | [] => skinning
  | r :: rest =>
    writeSkinLoop models ibps rest (j + 1)
      (skinning.set j (Mat4.mul (models.getD r default) (ibps.getD j default)))

/-- An osg::Geode reduced to its drawable list; every drawable the adapter
stores is an osg::Geometry. -/
structure Geode where
  drawables : List Geometry
deriving DecidableEq

/-- The drawable rebuild step of applyMeshes (lines 356-366): when the
drawable count differs from the mesh count, remove every drawable and add one
fresh geometry per mesh. -/
def rebuildDrawables (meshes : List OzzMesh) (geode : Geode) : List Geometry :=
  if geode.drawables.length ≠ meshes.length
  then List.replicate meshes.length Geometry.fresh
  else geode.drawables

/-- The per-mesh loop of applyMeshes (lines 368-381), walking meshes and
drawables in lockstep.  Returns the overall result, the updated drawables,
the final skinning buffer, and the trace of skinning buffers passed to
applySkinningMesh (one entry per mesh it ran on).  The list-length mismatch
case is unreachable after the rebuild step. -/
def applyLoop (ext : OsgExt) (models : List Mat4) (withSkinning : Bool)
    (meshes : List OzzMesh) (geoms : List Geometry) (skinning : List Mat4) :
    Bool × List Geometry × List Mat4 × List (List Mat4) :=
  match meshes, geoms with
  | [], gs => (true, gs, skinning, [])
  | _ :: _, [] => (true, [], skinning, [])
  | mesh :: ms, g :: gs =>
    if withSkinning = false then
      let g2 := (OzzAnimation.applyMesh ext g mesh).2
      let (ok, gs2, sk2, tr) := applyLoop ext models withSkinning ms gs skinning
      (ok, g2 :: gs2, sk2, tr)
    else
      let sk1 := writeSkinLoop models mesh.inverse_bind_poses mesh.joint_remaps 0 skinning
      let (ok1, g2) := OzzAnimation.applySkinningMesh ext sk1 g mesh
      if ok1 = false then (false, g2 :: gs, sk1, [sk1])
      else
        let (ok, gs2, sk2, tr) := applyLoop ext models withSkinning ms gs sk1
        (ok, g2 :: gs2, sk2, sk1 :: tr)

/-- PlayerAnimation::applyMeshes (lines 353-383). -/
def PlayerAnimation.applyMeshes (ext : OsgExt) (st : OzzAnimation) (geode : Geode)
    (withSkinning : Bool) : Bool × OzzAnimation × Geode × List (List Mat4) :=
  let ds := rebuildDrawables st.meshes geode
  let (ok, ds2, sk2, tr) := applyLoop ext st.models withSkinning st.meshes ds st.skinning_matrices
  (ok, { st with skinning_matrices := sk2 }, ⟨ds2⟩, tr)

theorem clampBetween_nonneg (t : F) : 0 ≤ clampBetween t 0 1 := by
  unfold clampBetween clampBelow clampAbove
  split_ifs <;> linarith

/-- C5: seek stores the time ratio clamped into [0, 1] (negative inputs store
0, inputs above 1 store 1, others store the input unchanged) and raises the
reset flag, so that the next unpaused update rebases startTime as
simTime - ratio * duration / playbackSpeed, clears the flag and keeps the
stored ratio instead of recomputing it. -/
theorem seek_clamps_and_next_update_rebases (st : PlayerState) (t : F) :
    ((t < 0 → (PlayerAnimation.seek st t).timeRatio = 0) ∧
     (t > 1 → (PlayerAnimation.seek st t).timeRatio = 1) ∧
     (0 ≤ t → t ≤ 1 → (PlayerAnimation.seek st t).timeRatio = t) ∧
     (PlayerAnimation.seek st t).resetTimeRatio = true) ∧
    (∀ simTime duration : F, ∀ lp : Bool,
      PlayerAnimation.updateTimeRatio (PlayerAnimation.seek st t) simTime false lp duration =
        { playbackSpeed := st.playbackSpeed,
          timeRatio := clampBetween t 0 1,
          startTime := simTime - clampBetween t 0 1 * duration / st.playbackSpeed,
          resetTimeRatio := false }) := by
  have hcl : ∀ u : F, clampBetween u 0 1 = if u < 0 then 0 else if u > 1 then 1 else u := by
    intro u
    unfold clampBetween clampBelow clampAbove
    split_ifs <;> first | rfl | linarith
  refine ⟨⟨?_, ?_, ?_, rfl⟩, ?_⟩
  · intro h
    simp [PlayerAnimation.seek, hcl, h]
  · intro h
    simp only [PlayerAnimation.seek, hcl]
    rw [if_neg (by linarith), if_pos h]
  · intro h0 h1
    simp only [PlayerAnimation.seek, hcl]
    rw [if_neg (by linarith), if_neg (by linarith)]
  · intro simTime duration lp
    have hnn := clampBetween_nonneg t
    simp only [PlayerAnimation.seek, PlayerAnimation.updateTimeRatio]
    rw [if_neg (by simp), if_neg (by simp; linarith), if_pos (by simp)]

/-- Closed instance of the C5 theorem at concrete inputs. -/
theorem seek_clamps_and_next_update_rebases_witness :
    (PlayerAnimation.seek ⟨1, -1, 0, false⟩ (1/2)).timeRatio = 1/2 ∧
    PlayerAnimation.updateTimeRatio (PlayerAnimation.seek ⟨1, -1, 0, false⟩ (1/2))
      10 false false 2 = ⟨1, 1/2, 9, false⟩ := by
  constructor
  · exact (seek_clamps_and_next_update_rebases ⟨1, -1, 0, false⟩ (1/2)).1.2.2.1
      (by norm_num) (by norm_num)
  · have h := (seek_clamps_and_next_update_rebases ⟨1, -1, 0, false⟩ (1/2)).2
      10 2 false
    rw [h]
    simp [clampBetween, clampAbove, clampBelow]
    norm_num

/-- C6: loadSkeleton succeeds exactly when the file opens and the archive tag
matches the Skeleton type, in which case it deserializes the archive content
into the destination; on any failure PlayerAnimation::initialize (modelled as
PlayerAnimation.init) returns false. -/
theorem loadSkeleton_success_iff (f : SkeletonFile) (sk0 : Skeleton) :
    ((OzzAnimation.loadSkeleton f sk0).1 = (f.opened && f.tagOk)) ∧
    (f.opened = true → f.tagOk = true → (OzzAnimation.loadSkeleton f sk0).2 = f.content) ∧
    ((f.opened && f.tagOk) = false → (OzzAnimation.loadSkeleton f sk0).2 = sk0) ∧
    ((f.opened && f.tagOk) = false →
      ∀ (meshF : MeshFile) (st : OzzAnimation), (PlayerAnimation.init f meshF st).1 = false) := by
  refine ⟨?_, ?_, ?_, ?_⟩
  · cases ho : f.opened <;> cases ht : f.tagOk <;>
      simp [OzzAnimation.loadSkeleton, ho, ht]
  · intro ho ht
    simp [OzzAnimation.loadSkeleton, ho, ht]
  · intro h
    cases ho : f.opened <;> cases ht : f.tagOk <;>
      simp_all [OzzAnimation.loadSkeleton]
  · intro h meshF st
    cases ho : f.opened <;> cases ht : f.tagOk <;>
      simp_all [OzzAnimation.loadSkeleton, PlayerAnimation.init]

/-- Closed instance of the C6 theorem: a good file deserializes, a file that
fails to open makes init fail. -/
theorem loadSkeleton_success_iff_witness :
    (OzzAnimation.loadSkeleton ⟨true, true, ⟨3, 1⟩⟩ ⟨0, 0⟩).2 = ⟨3, 1⟩ ∧
    (PlayerAnimation.init ⟨false, true, ⟨3, 1⟩⟩ ⟨true, []⟩
      ⟨[], "", ⟨0, 0⟩, [], [], []⟩).1 = false := by
  constructor
  · exact (loadSkeleton_success_iff ⟨true, true, ⟨3, 1⟩⟩ ⟨0, 0⟩).2.1 rfl rfl
  · exact (loadSkeleton_success_iff ⟨false, true, ⟨3, 1⟩⟩ ⟨0, 0⟩).2.2.2 (by decide)
      ⟨true, []⟩ ⟨[], "", ⟨0, 0⟩, [], [], []⟩

/-- C7: loadMesh fails exactly when the file does not open (leaving the mesh
vector unchanged); when the file opens it returns true and appends one mesh
per entry of the longest archive prefix whose tags match the Mesh type,
including appending nothing when the first tag already mismatches. -/
theorem loadMesh_appends_tagged_meshes (f : MeshFile) (ms : List OzzMesh) :
    ((OzzAnimation.loadMesh f ms).1 = f.opened) ∧
    (f.opened = true → (OzzAnimation.loadMesh f ms).2 =
      ms ++ (f.archive.takeWhile (fun e => e.isMeshTag)).map (fun e => e.mesh)) ∧
    (f.opened = false → (OzzAnimation.loadMesh f ms).2 = ms) := by
  refine ⟨?_, ?_, ?_⟩ <;>
    cases ho : f.opened <;> simp [OzzAnimation.loadMesh, ho]

/-- Closed instance of the C7 theorem: an archive with tags
[Mesh, other, Mesh] appends exactly the first mesh. -/
theorem loadMesh_appends_tagged_meshes_witness :
    (OzzAnimation.loadMesh
      ⟨true, [⟨true, ⟨[], [], [0], [], 7⟩⟩, ⟨false, ⟨[], [], [], [], 0⟩⟩,
              ⟨true, ⟨[], [], [], [], 0⟩⟩]⟩ []).2 = [⟨[], [], [0], [], 7⟩] := by
  have h := (loadMesh_appends_tagged_meshes
      ⟨true, [⟨true, ⟨[], [], [0], [], 7⟩⟩, ⟨false, ⟨[], [], [], [], 0⟩⟩,
              ⟨true, ⟨[], [], [], [], 0⟩⟩]⟩ []).2.1 rfl
  rw [h]
  decide

theorem AnimMap.containsKey_index (m : AnimMap) (k : String) :
    (m.index k).containsKey k = true := by
  unfold AnimMap.index
  split
  · assumption
  · unfold AnimMap.containsKey
    simp

theorem AnimMap.containsKey_setEntry (m : AnimMap) (k : String) (v : AnimationSampler) :
    (m.setEntry k v).containsKey k = m.containsKey k := by
  induction m with
  | nil => rfl
  | cons p rest ih =>
    unfold AnimMap.setEntry AnimMap.containsKey at ih ⊢
    simp only [List.map_cons, List.any_cons]
    rw [ih]
    by_cases h : (p.1 == k)
    · have hp : p.1 = k := by simpa using h
      simp [hp]
    · have hp : (p.1 == k) = false := by simpa using h
      simp [hp]

theorem AnimMap.length_setEntry (m : AnimMap) (k : String) (v : AnimationSampler) :
    (m.setEntry k v).length = m.length := by
  simp [AnimMap.setEntry]

/-- C8: loadAnimation inserts the map entry for the key before attempting the
file load and never removes it: after every call, in particular after one
that returned false (file-load failure or track-count mismatch), the
animation map still contains an entry for the key. -/
theorem loadAnimation_entry_persists (f : AnimFile) (key : String) (st : OzzAnimation) :
    ((PlayerAnimation.loadAnimation f key st).2.animations.containsKey key) = true := by
  simp only [PlayerAnimation.loadAnimation]
  cases hf : OzzAnimation.loadAnimationFile f ((st.animations.index key).getEntry key).animation with
  | mk b a =>
    cases b
    · simpa using AnimMap.containsKey_index st.animations key
    · by_cases ht : st.skeleton.num_joints ≠ a.num_tracks <;>
        simp [ht, AnimMap.containsKey_setEntry, AnimMap.containsKey_index]

/-- C9 (amended): after a successful loadAnimation, the key becomes the
selected animation when the map holds fewer than two entries at that point,
and otherwise the previously selected key is unchanged.  (The original
equivalence fails: reloading an already-selected key while the map holds two
entries leaves the selected key equal to the loaded key, see the
counterexample.) -/
theorem loadAnimation_selects_key_when_map_small (f : AnimFile) (key : String)
    (st : OzzAnimation) (h : (PlayerAnimation.loadAnimation f key st).1 = true) :
    ((PlayerAnimation.loadAnimation f key st).2.animations.length < 2 →
      (PlayerAnimation.loadAnimation f key st).2.currentKey = key) ∧
    (¬ (PlayerAnimation.loadAnimation f key st).2.animations.length < 2 →
      (PlayerAnimation.loadAnimation f key st).2.currentKey = st.currentKey) := by
  simp only [PlayerAnimation.loadAnimation] at h ⊢
  cases hf : OzzAnimation.loadAnimationFile f ((st.animations.index key).getEntry key).animation with
  | mk b a =>
    rw [hf] at h
    cases b
    · simp at h
    · by_cases ht : st.skeleton.num_joints ≠ a.num_tracks
      · simp [ht] at h
      · simp only [ht, if_false]
        constructor <;> intro hlen <;> simp_all

/-- Closed instance of the amended C9 theorem: the first successful load
selects its key. -/
theorem loadAnimation_selects_key_when_map_small_witness :
    (PlayerAnimation.loadAnimation ⟨true, true, ⟨1, 1⟩⟩ "walk"
      ⟨[], "", ⟨1, 1⟩, [], [], []⟩).2.currentKey = "walk" := by
  have h := loadAnimation_selects_key_when_map_small ⟨true, true, ⟨1, 1⟩⟩ "walk"
    ⟨[], "", ⟨1, 1⟩, [], [], []⟩ (by decide)
  exact h.1 (by decide)

/-- Counterexample to C9 as frozen: load "a", then "b", then "a" again, all
successfully.  After the third call the selected key equals the loaded key
"a", yet the map holds two entries, so the claimed equivalence (selected key
equals key iff the map has fewer than two entries) is false at this input. -/
theorem loadAnimation_selects_key_iff_counterexample :
    (PlayerAnimation.loadAnimation ⟨true, true, ⟨1, 1⟩⟩ "a"
      (PlayerAnimation.loadAnimation ⟨true, true, ⟨1, 1⟩⟩ "b"
        (PlayerAnimation.loadAnimation ⟨true, true, ⟨1, 1⟩⟩ "a"
          ⟨[], "", ⟨1, 1⟩, [], [], []⟩).2).2).1 = true ∧
    (PlayerAnimation.loadAnimation ⟨true, true, ⟨1, 1⟩⟩ "a"
      (PlayerAnimation.loadAnimation ⟨true, true, ⟨1, 1⟩⟩ "b"
        (PlayerAnimation.loadAnimation ⟨true, true, ⟨1, 1⟩⟩ "a"
          ⟨[], "", ⟨1, 1⟩, [], [], []⟩).2).2).2.currentKey = "a" ∧
    ¬ (PlayerAnimation.loadAnimation ⟨true, true, ⟨1, 1⟩⟩ "a"
      (PlayerAnimation.loadAnimation ⟨true, true, ⟨1, 1⟩⟩ "b"
        (PlayerAnimation.loadAnimation ⟨true, true, ⟨1, 1⟩⟩ "a"
          ⟨[], "", ⟨1, 1⟩, [], [], []⟩).2).2).2.animations.length < 2 := by
  refine ⟨by decide, by decide, by decide⟩

theorem foldl_max_init_le (l : List Nat) (a : Nat) : a ≤ l.foldl Nat.max a := by
  induction l generalizing a with
  | nil => simp
  | cons x xs ih => exact le_trans (Nat.le_max_left a x) (ih (Nat.max a x))

theorem mem_le_foldl_max (l : List Nat) (a : Nat) : ∀ x ∈ l, x ≤ l.foldl Nat.max a := by
  induction l generalizing a with
  | nil => simp
  | cons y ys ih =>
    intro x hx
    rcases List.mem_cons.mp hx with h | h
    · subst h
      exact le_trans (Nat.le_max_right a x) (foldl_max_init_le ys (Nat.max a x))
    · exact ih (Nat.max a y) x h

/-- C10: when both asset loads succeed, a successful init leaves the
model-matrix buffer sized to the skeleton joint count and the skinning-matrix
buffer sized to the largest joint_remaps size over all loaded meshes (0 when
none), hence at least every mesh's joint_remaps size; and init returns false
whenever some loaded mesh's highest joint index exceeds the joint count. -/
theorem init_buffer_sizes (skF : SkeletonFile) (meshF : MeshFile) (st : OzzAnimation)
    (hso : skF.opened = true) (hst : skF.tagOk = true) (hmo : meshF.opened = true) :
    ((PlayerAnimation.init skF meshF st).1 = true →
      (PlayerAnimation.init skF meshF st).2.models.length = skF.content.num_joints ∧
      (PlayerAnimation.init skF meshF st).2.skinning_matrices.length =
        (((PlayerAnimation.init skF meshF st).2.meshes.map
          (fun m => m.joint_remaps.length)).foldl Nat.max 0) ∧
      (∀ m ∈ (PlayerAnimation.init skF meshF st).2.meshes,
        m.joint_remaps.length ≤ (PlayerAnimation.init skF meshF st).2.skinning_matrices.length)) ∧
    ((∃ m ∈ st.meshes ++ (meshF.archive.takeWhile (fun e => e.isMeshTag)).map (fun e => e.mesh),
        skF.content.num_joints < m.highest_joint_index) →
      (PlayerAnimation.init skF meshF st).1 = false) := by
  simp only [PlayerAnimation.init, OzzAnimation.loadSkeleton, OzzAnimation.loadMesh,
    hso, hst, hmo]
  by_cases hbad : (st.meshes ++ (meshF.archive.takeWhile (fun e => e.isMeshTag)).map
      (fun e => e.mesh)).any (fun m => skF.content.num_joints < m.highest_joint_index)
  · constructor
    · intro h
      simp [hbad] at h
    · intro _
      simp [hbad]
  · constructor
    · intro _
      refine ⟨by simp [hbad, vecResize_length], by simp [hbad, vecResize_length], ?_⟩
      intro m hm
      simp [hbad] at hm
      simp [hbad, vecResize_length]
      rcases hm with hm | ⟨a, ha, rfl⟩
      · exact le_trans
          (mem_le_foldl_max (st.meshes.map (fun m => m.joint_remaps.length)) 0
            m.joint_remaps.length
            (List.mem_map_of_mem (fun m => m.joint_remaps.length) hm))
          (foldl_max_init_le _ _)
      · exact mem_le_foldl_max _ _ a.mesh.joint_remaps.length
          (List.mem_map_of_mem ((fun m => m.joint_remaps.length) ∘ (fun e => e.mesh)) ha)
    · intro hex
      exfalso
      apply hbad
      rw [List.any_eq_true]
      rcases hex with ⟨m, hm, hlt⟩
      exact ⟨m, hm, by simpa using hlt⟩

/-- Closed instance of the C10 theorem: buffers sized on success, failure on
a mesh whose highest joint index exceeds the joint count. -/
theorem init_buffer_sizes_witness :
    (PlayerAnimation.init ⟨true, true, ⟨2, 1⟩⟩ ⟨true, [⟨true, ⟨[], [], [5, 9], [], 2⟩⟩]⟩
      ⟨[], "", ⟨0, 0⟩, [], [], []⟩).2.models.length = 2 ∧
    (PlayerAnimation.init ⟨true, true, ⟨2, 1⟩⟩ ⟨true, [⟨true, ⟨[], [], [5, 9], [], 2⟩⟩]⟩
      ⟨[], "", ⟨0, 0⟩, [], [], []⟩).2.skinning_matrices.length = 2 ∧
    (PlayerAnimation.init ⟨true, true, ⟨2, 1⟩⟩ ⟨true, [⟨true, ⟨[], [], [5, 9], [], 3⟩⟩]⟩
      ⟨[], "", ⟨0, 0⟩, [], [], []⟩).1 = false := by
  have h := init_buffer_sizes ⟨true, true, ⟨2, 1⟩⟩ ⟨true, [⟨true, ⟨[], [], [5, 9], [], 2⟩⟩]⟩
    ⟨[], "", ⟨0, 0⟩, [], [], []⟩ rfl rfl rfl
  have h2 := init_buffer_sizes ⟨true, true, ⟨2, 1⟩⟩ ⟨true, [⟨true, ⟨[], [], [5, 9], [], 3⟩⟩]⟩
    ⟨[], "", ⟨0, 0⟩, [], [], []⟩ rfl rfl rfl
  refine ⟨(h.1 (by decide)).1, ?_, ?_⟩
  · rw [(h.1 (by decide)).2.1]
    decide
  · exact h2.2 ⟨⟨[], [], [5, 9], [], 3⟩, by decide, by decide⟩

/-- The value is a member of the list and a lower bound for it: the
component-wise minimum the specification speaks about. -/
def IsMinOf (v : F) (l : List F) : Prop := v ∈ l ∧ ∀ x ∈ l, v ≤ x

/-- The value is a member of the list and an upper bound for it. -/
def IsMaxOf (v : F) (l : List F) : Prop := v ∈ l ∧ ∀ x ∈ l, x ≤ v

theorem foldl_min_mem (l : List F) (a : F) : l.foldl Min.min a ∈ a :: l := by
  induction l generalizing a with
  | nil => simp
  | cons b t ih =>
    have h := ih (Min.min a b)
    rcases List.mem_cons.mp h with h1 | h1
    · rcases min_choice a b with hc | hc <;> rw [List.foldl_cons, h1, hc] <;> simp
    · simp [List.foldl_cons, List.mem_cons.mpr (Or.inr (List.mem_cons.mpr (Or.inr h1)))]

theorem foldl_min_le (l : List F) (a : F) : ∀ x ∈ a :: l, l.foldl Min.min a ≤ x := by
  induction l generalizing a with
  | nil => simp
  | cons b t ih =>
    intro x hx
    have hmin : t.foldl Min.min (Min.min a b) ≤ Min.min a b :=
      ih (Min.min a b) (Min.min a b) (List.mem_cons_self _ _)
    rcases List.mem_cons.mp hx with h1 | h1
    · subst h1
      exact le_trans hmin (min_le_left _ _)
    · rcases List.mem_cons.mp h1 with h2 | h2
      · subst h2
        exact le_trans hmin (min_le_right a x)
      · exact ih (Min.min a b) x (List.mem_cons.mpr (Or.inr h2))

theorem foldl_max_mem (l : List F) (a : F) : l.foldl Max.max a ∈ a :: l := by
  induction l generalizing a with
  | nil => simp
  | cons b t ih =>
    have h := ih (Max.max a b)
    rcases List.mem_cons.mp h with h1 | h1
    · rcases max_choice a b with hc | hc <;> rw [List.foldl_cons, h1, hc] <;> simp
    · simp [List.foldl_cons, List.mem_cons.mpr (Or.inr (List.mem_cons.mpr (Or.inr h1)))]

theorem foldl_max_ge (l : List F) (a : F) : ∀ x ∈ a :: l, x ≤ l.foldl Max.max a := by
  induction l generalizing a with
  | nil => simp
  | cons b t ih =>
    intro x hx
    have hmax : Max.max a b ≤ t.foldl Max.max (Max.max a b) :=
      ih (Max.max a b) (Max.max a b) (List.mem_cons_self _ _)
    rcases List.mem_cons.mp hx with h1 | h1
    · subst h1
      exact le_trans (le_max_left x b) hmax
    · rcases List.mem_cons.mp h1 with h2 | h2
      · subst h2
        exact le_trans (le_max_right a x) hmax
      · exact ih (Max.max a b) x (List.mem_cons.mpr (Or.inr h2))

theorem boundLoop_eq (l : List Mat4) (mn mx : V4) :
    boundLoop l mn mx =
      (⟨(l.map (fun m => m.c3.x)).foldl Min.min mn.x,
        (l.map (fun m => m.c3.y)).foldl Min.min mn.y,
        (l.map (fun m => m.c3.z)).foldl Min.min mn.z,
        (l.map (fun m => m.c3.w)).foldl Min.min mn.w⟩,
       ⟨(l.map (fun m => m.c3.x)).foldl Max.max mx.x,
        (l.map (fun m => m.c3.y)).foldl Max.max mx.y,
        (l.map (fun m => m.c3.z)).foldl Max.max mx.z,
        (l.map (fun m => m.c3.w)).foldl Max.max mx.w⟩) := by
  induction l generalizing mn mx with
  | nil => simp [boundLoop]
  | cons m t ih => simp [boundLoop, V4.min, V4.max, ih]

/-- C1: computeSkeletonBounds returns the default-constructed (invalid) box
for a skeleton with zero joints; for a skeleton with at least one joint whose
bind-pose local-to-model job succeeds, the returned corners are the
component-wise minimum and maximum of the translation columns cols[3] of the
model-space bind-pose matrices of all joints. -/
theorem computeSkeletonBounds_from_bind_poses (sk : Skeleton) (ltm : Option (List Mat4)) :
    (sk.num_joints = 0 → PlayerAnimation.computeSkeletonBounds sk ltm = BoundingBox.default0) ∧
    (∀ ms : List Mat4, 0 < sk.num_joints → ltm = some ms → ms.length = sk.num_joints →
      (IsMinOf (PlayerAnimation.computeSkeletonBounds sk ltm).bmin.x
          (ms.map (fun m => m.c3.x)) ∧
       IsMinOf (PlayerAnimation.computeSkeletonBounds sk ltm).bmin.y
          (ms.map (fun m => m.c3.y)) ∧
       IsMinOf (PlayerAnimation.computeSkeletonBounds sk ltm).bmin.z
          (ms.map (fun m => m.c3.z))) ∧
      (IsMaxOf (PlayerAnimation.computeSkeletonBounds sk ltm).bmax.x
          (ms.map (fun m => m.c3.x)) ∧
       IsMaxOf (PlayerAnimation.computeSkeletonBounds sk ltm).bmax.y
          (ms.map (fun m => m.c3.y)) ∧
       IsMaxOf (PlayerAnimation.computeSkeletonBounds sk ltm).bmax.z
          (ms.map (fun m => m.c3.z)))) := by
  constructor
  · intro h0
    simp [PlayerAnimation.computeSkeletonBounds, h0]
  · intro ms hpos hsome hlen
    subst hsome
    cases ms with
    | nil => simp at hlen; omega
    | cons m0 rest =>
      have hnz : sk.num_joints ≠ 0 := by omega
      simp only [PlayerAnimation.computeSkeletonBounds, hnz, if_false, boundLoop_eq]
      refine ⟨⟨⟨?_, ?_⟩, ⟨?_, ?_⟩, ⟨?_, ?_⟩⟩, ⟨?_, ?_⟩, ⟨?_, ?_⟩, ⟨?_, ?_⟩⟩ <;>
        simp only [List.map_cons] <;>
        first
          | exact foldl_min_mem _ _
          | exact foldl_max_mem _ _
          | exact foldl_min_le _ _
          | exact foldl_max_ge _ _

/-- A concrete bind-pose model matrix used by the C1 witness. -/
def bbMatA : Mat4 := ⟨V4.zero, V4.zero, V4.zero, ⟨1, 5, 3, 0⟩⟩

/-- A second concrete bind-pose model matrix used by the C1 witness. -/
def bbMatB : Mat4 := ⟨V4.zero, V4.zero, V4.zero, ⟨2, 4, 0, 7⟩⟩

/-- Closed instance of the C1 theorem at a two-joint skeleton and at a
zero-joint skeleton. -/
theorem computeSkeletonBounds_from_bind_poses_witness :
    (IsMinOf (PlayerAnimation.computeSkeletonBounds ⟨2, 1⟩
        (some [bbMatA, bbMatB])).bmin.x ([bbMatA, bbMatB].map (fun m => m.c3.x)) ∧
     IsMaxOf (PlayerAnimation.computeSkeletonBounds ⟨2, 1⟩
        (some [bbMatA, bbMatB])).bmax.y ([bbMatA, bbMatB].map (fun m => m.c3.y))) ∧
    (PlayerAnimation.computeSkeletonBounds ⟨2, 1⟩ (some [bbMatA, bbMatB])).bmin.x = 1 ∧
    (PlayerAnimation.computeSkeletonBounds ⟨2, 1⟩ (some [bbMatA, bbMatB])).bmax.y = 5 ∧
    PlayerAnimation.computeSkeletonBounds ⟨0, 0⟩ none = BoundingBox.default0 := by
  have h := (computeSkeletonBounds_from_bind_poses ⟨2, 1⟩ (some [bbMatA, bbMatB])).2
    [bbMatA, bbMatB] (by decide) rfl (by decide)
  have h0 := (computeSkeletonBounds_from_bind_poses ⟨0, 0⟩ none).1 rfl
  exact ⟨⟨h.1.1, h.2.2.1⟩, by decide, by decide, h0⟩

theorem rebuildDrawables_length (meshes : List OzzMesh) (geode : Geode) :
    (rebuildDrawables meshes geode).length = meshes.length := by
  unfold rebuildDrawables
  split
  · simp
  · omega

theorem applyLoop_geoms_length (ext : OsgExt) (models : List Mat4) (w : Bool)
    (meshes : List OzzMesh) (geoms : List Geometry) (sk : List Mat4)
    (h : geoms.length = meshes.length) :
    (applyLoop ext models w meshes geoms sk).2.1.length = geoms.length := by
  induction meshes generalizing geoms sk with
  | nil => simp [applyLoop]
  | cons m ms ih =>
    cases geoms with
    | nil => simp at h
    | cons g gs =>
      have hlen : gs.length = ms.length := by simpa using h
      cases w with
      | false =>
        rcases he : applyLoop ext models false ms gs sk with ⟨ok, gs2, sk2, tr⟩
        have hthis := ih gs sk hlen
        rw [he] at hthis
        simp only [applyLoop, if_true, he]
        simp_all
      | true =>
        rcases hs : OzzAnimation.applySkinningMesh ext
            (writeSkinLoop models m.inverse_bind_poses m.joint_remaps 0 sk) g m with ⟨ok1, g2⟩
        rcases he : applyLoop ext models true ms gs
            (writeSkinLoop models m.inverse_bind_poses m.joint_remaps 0 sk) with ⟨ok, gs2, sk2, tr⟩
        have hthis := ih gs (writeSkinLoop models m.inverse_bind_poses m.joint_remaps 0 sk) hlen
        rw [he] at hthis
        simp only [applyLoop, Bool.true_eq_false, if_false, hs, he]
        cases ok1 <;> simp_all

/-- C3: applyMeshes keeps one drawable per loaded mesh: when the drawable
count differs from the mesh count every drawable is removed and one fresh
geometry per mesh is added, and after every call (skinning or not, early-out
or not) the drawable count equals the mesh count. -/
theorem applyMeshes_drawable_count (ext : OsgExt) (st : OzzAnimation) (geode : Geode)
    (withSkinning : Bool) :
    (geode.drawables.length ≠ st.meshes.length →
      rebuildDrawables st.meshes geode = List.replicate st.meshes.length Geometry.fresh) ∧
    (PlayerAnimation.applyMeshes ext st geode withSkinning).2.2.1.drawables.length
      = st.meshes.length := by
  constructor
  · intro h
    unfold rebuildDrawables
    rw [if_pos h]
  · simp only [PlayerAnimation.applyMeshes]
    rcases he : applyLoop ext st.models withSkinning st.meshes
        (rebuildDrawables st.meshes geode) st.skinning_matrices with ⟨ok, gs2, sk2, tr⟩
    have h1 := applyLoop_geoms_length ext st.models withSkinning st.meshes
      (rebuildDrawables st.meshes geode) st.skinning_matrices
      (rebuildDrawables_length st.meshes geode)
    rw [he] at h1
    simp at h1
    simp [h1, rebuildDrawables_length]

/-- A concrete oracle for the external library calls, used by closed witness
instances: smoothing yields one zero normal per vertex and the skinning job
always fails (the adapter only logs that case). -/
def extTriv : OsgExt where
  smoothed := fun g => List.replicate g.vaLen V3.zero
  smoothed_len := fun g => by simp
  runSkinJob := fun _ => none

/-- Closed instance of the C3 theorem: an empty geode gains one drawable for
a one-mesh state. -/
theorem applyMeshes_drawable_count_witness :
    rebuildDrawables [⟨[], [], [], [], 0⟩] ⟨[]⟩ = [Geometry.fresh] ∧
    (PlayerAnimation.applyMeshes extTriv ⟨[], "", ⟨1, 1⟩, [], [], [⟨[], [], [], [], 0⟩]⟩
      ⟨[]⟩ false).2.2.1.drawables.length = 1 := by
  constructor
  · have h := (applyMeshes_drawable_count extTriv
      ⟨[], "", ⟨1, 1⟩, [], [], [⟨[], [], [], [], 0⟩]⟩ ⟨[]⟩ false).1 (by decide)
    rw [h]
    decide
  · exact (applyMeshes_drawable_count extTriv
      ⟨[], "", ⟨1, 1⟩, [], [], [⟨[], [], [], [], 0⟩]⟩ ⟨[]⟩ false).2

instance : Inhabited OzzMesh := ⟨⟨[], [], [], [], 0⟩⟩

theorem writeSkinLoop_length (models ibps : List Mat4) (remaps : List Nat) (j : Nat)
    (sk : List Mat4) : (writeSkinLoop models ibps remaps j sk).length = sk.length := by
  induction remaps generalizing j sk with
  | nil => rfl
  | cons r rest ih => simp [writeSkinLoop, ih]

theorem writeSkinLoop_frame (models ibps : List Mat4) (remaps : List Nat) (j p : Nat)
    (sk : List Mat4) (hp : p < j) :
    (writeSkinLoop models ibps remaps j sk)[p]? = sk[p]? := by
  induction remaps generalizing j sk with
  | nil => rfl
  | cons r rest ih =>
    rw [writeSkinLoop, ih (j + 1) _ (by omega)]
    exact List.getElem?_set_ne (by omega)

theorem writeSkinLoop_get (models ibps : List Mat4) (remaps : List Nat) (j k : Nat)
    (sk : List Mat4) (hk : k < remaps.length) (hjk : j + k < sk.length) :
    (writeSkinLoop models ibps remaps j sk)[j + k]? =
      some (Mat4.mul (models.getD (remaps.getD k 0) default)
        (ibps.getD (j + k) default)) := by
  induction remaps generalizing j k sk with
  | nil => simp at hk
  | cons r rest ih =>
    cases k with
    | zero =>
      rw [writeSkinLoop, writeSkinLoop_frame _ _ _ _ _ _ (by omega)]
      simp only [Nat.add_zero, List.getD_cons_zero]
      exact List.getElem?_set_eq_of_lt _ (by omega)
    | succ k =>
      rw [writeSkinLoop]
      have h2 := ih (j + 1) k
        (sk.set j (Mat4.mul (models.getD r default) (ibps.getD j default)))
        (by simpa using hk) (by simp; omega)
      have hidx : j + (k + 1) = (j + 1) + k := by omega
      rw [hidx]
      simpa using h2

theorem applyLoop_trace (ext : OsgExt) (models : List Mat4) (meshes : List OzzMesh)
    (geoms : List Geometry) (sk : List Mat4) (i : Nat) (buf : List Mat4)
    (ht : (applyLoop ext models true meshes geoms sk).2.2.2[i]? = some buf) :
    ∃ sk0 : List Mat4, sk0.length = sk.length ∧
      buf = writeSkinLoop models (meshes.getD i default).inverse_bind_poses
        (meshes.getD i default).joint_remaps 0 sk0 := by
  induction meshes generalizing geoms sk i with
  | nil => simp [applyLoop] at ht
  | cons m ms ih =>
    cases geoms with
    | nil => simp [applyLoop] at ht
    | cons g gs =>
      rcases hs : OzzAnimation.applySkinningMesh ext
          (writeSkinLoop models m.inverse_bind_poses m.joint_remaps 0 sk) g m with ⟨ok1, g2⟩
      rcases he : applyLoop ext models true ms gs
          (writeSkinLoop models m.inverse_bind_poses m.joint_remaps 0 sk) with ⟨ok, gs2, sk2, tr⟩
      simp only [applyLoop, Bool.true_eq_false, if_false, hs, he] at ht
      cases ok1 with
      | false =>
        simp only [if_pos rfl] at ht
        cases i with
        | zero =>
          simp at ht
          exact ⟨sk, rfl, ht.symm⟩
        | succ i => simp at ht
      | true =>
        simp only [Bool.true_eq_false, if_false] at ht
        cases i with
        | zero =>
          simp at ht
          exact ⟨sk, rfl, ht.symm⟩
        | succ i =>
          simp only [List.getElem?_cons_succ] at ht
          have := ih gs (writeSkinLoop models m.inverse_bind_poses m.joint_remaps 0 sk) i
            (by rw [he]; exact ht)
          rcases this with ⟨sk0, hlen, hbuf⟩
          refine ⟨sk0, ?_, ?_⟩
          · rw [hlen, writeSkinLoop_length]
          · simpa using hbuf

/-- C2: in the forward-skinning path of applyMeshes, for every mesh the loop
runs on and every index j below that mesh's joint_remaps size, the skinning
matrix at slot j passed to the skinning job (via the span captured at
applySkinningMesh entry) equals the current model-space matrix at index
joint_remaps[j] multiplied by inverse_bind_poses[j], written immediately
before applySkinningMesh runs on that mesh. -/
theorem applyMeshes_skinning_matrices (ext : OsgExt) (st : OzzAnimation) (geode : Geode)
    (i j : Nat) (buf : List Mat4)
    (htr : (PlayerAnimation.applyMeshes ext st geode true).2.2.2[i]? = some buf)
    (hj : j < (st.meshes.getD i default).joint_remaps.length)
    (hbuf : (st.meshes.getD i default).joint_remaps.length ≤ st.skinning_matrices.length) :
    buf[j]? = some (Mat4.mul
      (st.models.getD ((st.meshes.getD i default).joint_remaps.getD j 0) default)
      ((st.meshes.getD i default).inverse_bind_poses.getD j default)) := by
  rcases he : applyLoop ext st.models true st.meshes (rebuildDrawables st.meshes geode)
      st.skinning_matrices with ⟨ok, ds2, sk2, tr⟩
  simp only [PlayerAnimation.applyMeshes, he] at htr
  obtain ⟨sk0, hlen, rfl⟩ := applyLoop_trace ext st.models st.meshes
    (rebuildDrawables st.meshes geode) st.skinning_matrices i buf (by rw [he]; exact htr)
  have hget := writeSkinLoop_get st.models (st.meshes.getD i default).inverse_bind_poses
    (st.meshes.getD i default).joint_remaps 0 j sk0 hj (by omega)
  simpa using hget

/-- Concrete model-space joint matrix for the C2 witness. -/
def skMatModel : Mat4 := ⟨⟨1, 0, 0, 0⟩, ⟨0, 1, 0, 0⟩, ⟨0, 0, 1, 0⟩, ⟨2, 3, 4, 1⟩⟩

/-- Concrete inverse bind-pose matrix for the C2 witness. -/
def skMatBind : Mat4 := ⟨⟨1, 0, 0, 0⟩, ⟨0, 1, 0, 0⟩, ⟨0, 0, 1, 0⟩, ⟨-1, 0, 0, 1⟩⟩

/-- Concrete OzzAnimation state for the C2 witness: two model matrices, a
one-slot skinning buffer, one mesh remapping its single joint to index 1. -/
def skStateW : OzzAnimation :=
  ⟨[], "", ⟨2, 1⟩, [⟨V4.zero, V4.zero, V4.zero, V4.zero⟩, skMatModel],
   [⟨V4.zero, V4.zero, V4.zero, V4.zero⟩], [⟨[], [], [1], [skMatBind], 2⟩]⟩

/-- Closed instance of the C2 theorem: the traced buffer for the first mesh
holds models[1] * inverse_bind_poses[0] at slot 0. -/
theorem applyMeshes_skinning_matrices_witness :
    (PlayerAnimation.applyMeshes extTriv skStateW ⟨[]⟩ true).2.2.2[0]? =
      some [Mat4.mul skMatModel skMatBind] ∧
    [Mat4.mul skMatModel skMatBind][0]? = some (Mat4.mul
      (skStateW.models.getD ((skStateW.meshes.getD 0 default).joint_remaps.getD 0 0) default)
      ((skStateW.meshes.getD 0 default).inverse_bind_poses.getD 0 default)) := by
  refine ⟨by rfl, ?_⟩
  exact applyMeshes_skinning_matrices extTriv skStateW ⟨[]⟩ 0 0
    [Mat4.mul skMatModel skMatBind] (by rfl) (by decide) (by decide)

theorem fixupArray_fst_length {α : Type} (o : Option (OsgArray α)) (n : Nat) (z : α) :
    (fixupArray o n z).1.data.length = n := by
  cases o with
  | none => simp [fixupArray]
  | some a =>
    by_cases h : a.data.length ≠ n
    · simp [fixupArray, h, vecResize_length]
    · push_neg at h
      simp [fixupArray, h]

theorem copyParts_length (parts : List MeshPart) (vIndex : Nat) (vaD naD : List V3)
    (taD : List V2) (caD : List RGBA) (hn hu hc : Bool) :
    (copyParts parts vIndex vaD naD taD caD hn hu hc).1.length = vaD.length ∧
    (copyParts parts vIndex vaD naD taD caD hn hu hc).2.1.length = naD.length ∧
    (copyParts parts vIndex vaD naD taD caD hn hu hc).2.2.1.length = taD.length ∧
    (copyParts parts vIndex vaD naD taD caD hn hu hc).2.2.2.1.length = caD.length := by
  induction parts generalizing vIndex vaD naD taD caD hn hu hc with
  | nil => simp [copyParts]
  | cons p rest ih =>
    simp only [copyParts]
    split_ifs <;> simp [ih, overwriteRange_length]

theorem applyMesh_noop_aux (ext : OsgExt) (geom : Geometry) (mesh : OzzMesh)
    (hv : mesh.vertex_count ≠ 0)
    (va na : OsgArray V3) (ta : OsgArray V2) (ca : OsgArray RGBA) (de : OsgArray Nat)
    (hva : geom.va = some va) (hna : geom.na = some na) (hta : geom.ta = some ta)
    (hca : geom.ca = some ca) (hde : geom.prim0 = some de)
    (lva : va.data.length = mesh.vertex_count) (lna : na.data.length = mesh.vertex_count)
    (lta : ta.data.length = mesh.vertex_count) (lca : ca.data.length = mesh.vertex_count)
    (lde : de.data.length = mesh.triangle_index_count) :
    OzzAnimation.applyMesh ext geom mesh = (true, geom) := by
  obtain ⟨gva, gna, gta, gca, gprim, db, udl, uvbo⟩ := geom
  subst hva hna hta hca hde
  simp [OzzAnimation.applyMesh, fixupArray, fixupPrim, hv, lva, lna, lta, lca, lde]

/-- The option holds an array whose data has exactly this length. -/
def hasLen {α : Type} (o : Option (OsgArray α)) (n : Nat) : Prop :=
  ∃ a, o = some a ∧ a.data.length = n

theorem applyMesh_sizes_aux (ext : OsgExt) (geom : Geometry) (mesh : OzzMesh)
    (hv : mesh.vertex_count ≠ 0) :
    hasLen (OzzAnimation.applyMesh ext geom mesh).2.va mesh.vertex_count ∧
    hasLen (OzzAnimation.applyMesh ext geom mesh).2.na mesh.vertex_count ∧
    hasLen (OzzAnimation.applyMesh ext geom mesh).2.ta mesh.vertex_count ∧
    hasLen (OzzAnimation.applyMesh ext geom mesh).2.ca mesh.vertex_count := by
  rcases h1 : fixupArray geom.va mesh.vertex_count V3.zero with ⟨va, dva⟩
  rcases h2 : fixupArray geom.na mesh.vertex_count V3.zero with ⟨na, dna⟩
  rcases h3 : fixupArray geom.ta mesh.vertex_count V2.zero with ⟨ta, dta⟩
  rcases h4 : fixupArray geom.ca mesh.vertex_count RGBA.zero with ⟨ca, dca⟩
  rcases h5 : fixupPrim geom.prim0 mesh.triangle_index_count mesh.triangle_indices with ⟨de, deOk⟩
  have lva : va.data.length = mesh.vertex_count := by
    have h := fixupArray_fst_length geom.va mesh.vertex_count V3.zero
    rw [h1] at h
    exact h
  have lna : na.data.length = mesh.vertex_count := by
    have h := fixupArray_fst_length geom.na mesh.vertex_count V3.zero
    rw [h2] at h
    exact h
  have lta : ta.data.length = mesh.vertex_count := by
    have h := fixupArray_fst_length geom.ta mesh.vertex_count V2.zero
    rw [h3] at h
    exact h
  have lca : ca.data.length = mesh.vertex_count := by
    have h := fixupArray_fst_length geom.ca mesh.vertex_count RGBA.zero
    rw [h4] at h
    exact h
  simp only [OzzAnimation.applyMesh, h1, h2, h3, h4, h5]
  rw [if_neg hv]
  cases deOk with
  | false =>
    simp only [if_pos rfl]
    exact ⟨⟨va, rfl, lva⟩, ⟨na, rfl, lna⟩, ⟨ta, rfl, lta⟩, ⟨ca, rfl, lca⟩⟩
  | true =>
    simp only [Bool.true_eq_false, if_false]
    by_cases hflags : dva = false ∧ dna = false ∧ dta = false ∧ dca = false
    · rw [if_pos hflags]
      exact ⟨⟨va, rfl, lva⟩, ⟨na, rfl, lna⟩, ⟨ta, rfl, lta⟩, ⟨ca, rfl, lca⟩⟩
    · rw [if_neg hflags]
      rcases hcp : copyParts mesh.parts 0 va.data na.data ta.data ca.data true true true with
        ⟨vaD, naD, taD, caD, hn, hu, hc⟩
      have hlens := copyParts_length mesh.parts 0 va.data na.data ta.data ca.data true true true
      rw [hcp] at hlens
      simp only at hlens
      simp only [hcp]
      cases hn with
      | false =>
        refine ⟨⟨_, rfl, ?_⟩, ⟨_, rfl, ?_⟩, ⟨_, rfl, ?_⟩, ⟨_, rfl, ?_⟩⟩
        · simp only [if_true]
          simp [hlens.1, lva]
        · simp only [if_true, OsgExt.smooth]
          rw [ext.smoothed_len]
          simp [Geometry.vaLen, hlens.1, lva]
        · simp only [if_true]
          simp [hlens.2.2.1, lta]
        · simp only [if_true, OsgExt.smooth]
          split <;> simp [hlens.2.2.2, lca]
      | true =>
        refine ⟨⟨_, rfl, ?_⟩, ⟨_, rfl, ?_⟩, ⟨_, rfl, ?_⟩, ⟨_, rfl, ?_⟩⟩
        · simp only [if_false]
          simp [hlens.1, lva]
        · simp only [if_false]
          simp [hlens.2.1, lna]
        · simp only [if_false]
          simp [hlens.2.2.1, lta]
        · simp only [Bool.true_eq_false, if_false]
          split <;> simp [hlens.2.2.2, lca]

/-- C4 (amended): for a mesh with a positive vertex count, when the vertex,
normal, texcoord-0 and color arrays all exist with size equal to the vertex
count and the first primitive set exists with size equal to the triangle
index count, applyMesh returns true with the geometry completely unchanged
(no data copied, no dirty flag raised); and on every geometry each of the
four attribute arrays ends up present with size equal to the vertex count,
so any mis-sized array is resized to it.  (As frozen the claim also covers
zero-vertex meshes, where applyMesh in fact returns false before touching
the arrays; see the counterexample.) -/
theorem applyMesh_bookkeeping (ext : OsgExt) (geom : Geometry) (mesh : OzzMesh)
    (hv : mesh.vertex_count ≠ 0) :
    (∀ va na ta ca de, geom.va = some va → geom.na = some na → geom.ta = some ta →
      geom.ca = some ca → geom.prim0 = some de →
      va.data.length = mesh.vertex_count → na.data.length = mesh.vertex_count →
      ta.data.length = mesh.vertex_count → ca.data.length = mesh.vertex_count →
      de.data.length = mesh.triangle_index_count →
      OzzAnimation.applyMesh ext geom mesh = (true, geom)) ∧
    (hasLen (OzzAnimation.applyMesh ext geom mesh).2.va mesh.vertex_count ∧
     hasLen (OzzAnimation.applyMesh ext geom mesh).2.na mesh.vertex_count ∧
     hasLen (OzzAnimation.applyMesh ext geom mesh).2.ta mesh.vertex_count ∧
     hasLen (OzzAnimation.applyMesh ext geom mesh).2.ca mesh.vertex_count) := by
  refine ⟨?_, applyMesh_sizes_aux ext geom mesh hv⟩
  intro va na ta ca de hva hna hta hca hde lva lna lta lca lde
  exact applyMesh_noop_aux ext geom mesh hv va na ta ca de hva hna hta hca hde
    lva lna lta lca lde

/-- Counterexample to C4 as frozen: a mesh with zero vertices together with a
geometry whose four attribute arrays exist with size 0 (equal to the vertex
count) and whose first primitive set has size 0 (equal to the triangle index
count).  The claim as stated demands that applyMesh return true here; the
code returns false at its vertex-count guard (line 87). -/
theorem applyMesh_zero_vertices_counterexample :
    OzzAnimation.applyMesh extTriv
      ⟨some ⟨[], false⟩, some ⟨[], false⟩, some ⟨[], false⟩, some ⟨[], false⟩,
       some ⟨[], false⟩, false, false, false⟩ ⟨[], [], [], [], 0⟩ =
    (false, ⟨some ⟨[], false⟩, some ⟨[], false⟩, some ⟨[], false⟩, some ⟨[], false⟩,
       some ⟨[], false⟩, false, false, false⟩) := by
  rfl

/-- Concrete one-vertex mesh for the C4 witness. -/
def mWit : OzzMesh :=
  ⟨[⟨[⟨0, 0, 0⟩], [⟨0, 0, 1⟩], [⟨0, 0⟩], [⟨255, 255, 255, 255⟩], [], [], []⟩],
   [0, 0, 0], [], [], 0⟩

/-- Concrete matching geometry for the C4 witness: every array sized 1, the
primitive set sized 3. -/
def gWit : Geometry :=
  ⟨some ⟨[⟨0, 0, 0⟩], false⟩, some ⟨[⟨0, 0, 1⟩], false⟩, some ⟨[⟨0, 0⟩], false⟩,
   some ⟨[⟨255, 255, 255, 255⟩], false⟩, some ⟨[0, 0, 0], false⟩, false, false, false⟩

/-- Closed instance of the amended C4 theorem: on the matching geometry the
call is a no-op returning true, and the vertex array ends with size equal to
the vertex count. -/
theorem applyMesh_bookkeeping_witness :
    OzzAnimation.applyMesh extTriv gWit mWit = (true, gWit) ∧
    hasLen (OzzAnimation.applyMesh extTriv gWit mWit).2.va 1 := by
  have h := applyMesh_bookkeeping extTriv gWit mWit (by decide)
  exact ⟨h.1 _ _ _ _ _ rfl rfl rfl rfl rfl (by decide) (by decide) (by decide) (by decide)
    (by decide), h.2.1⟩
